import Mathlib

/-!
Verification of the JUMBO-DOLL promotional-image generator.

Shallow embedding of the two source files:
* `src/services/geminiService.ts` — the six-pose sequential generation loop
  (`POSES_PROMPTS`, `generateSingleImage`, `generatePromotionalImages`).
* `src/App.tsx` — the application state handler (`handleGenerate`, the
  `onProgress` callback, `processImageTo9x16`, `fileHandler`).

The external generative-image service is modelled as a function from the
request (two image artifacts and the composed text prompt) to a structured
response; JavaScript control flow becomes explicit state passing, the
per-request/per-callback effects become an explicit event trace, and the
JavaScript floating-point canvas arithmetic is modelled with exact rationals.
-/

namespace JumboDoll

/-- Embeds the `ImageFile` type of `src/types.ts` as used throughout the app:
a base64 payload, its media type, and a displayable preview URL. -/
structure ImageFile where
  base64 : String
  mimeType : String
  previewUrl : String
deriving DecidableEq

/-- Embeds the `AspectRatio` union type `'9:16' | '16:9' | '1:1'`. -/
inductive AspectRatio where
  | r9x16
  | r16x9
  | r1x1
deriving DecidableEq

/-- Embeds `POSES_PROMPTS` from `src/services/geminiService.ts` lines 13-20:
the fixed ordered catalog of six pose descriptions. -/
def POSES_PROMPTS : List String :=
  [ "hugging the doll tightly while standing, full body shot.",
    "sitting on a fluffy rug on the floor, joyfully embracing the doll.",
    "in a close-up shot, smiling warmly while hugging the doll.",
    "playfully trying to lift the oversized doll off the ground while hugging it.",
    "peeking over the top of the jumbo doll while hugging it from behind.",
    "lying on a cozy bed, cuddling with the jumbo doll." ]

/-- Embeds the `inlineData` payload of a response content part:
a media type and base64 data. -/
structure InlineData where
  mimeType : String
  data : String
deriving DecidableEq

/-- Embeds a response content part; `inlineData` is `none` for parts that
carry no inline image data (e.g. text parts). -/
structure ResponsePart where
  inlineData : Option InlineData
deriving DecidableEq

/-- Embeds the `content` field of a response candidate, holding the parts. -/
structure Content where
  parts : List ResponsePart
deriving DecidableEq

/-- Embeds a response candidate. -/
structure Candidate where
  content : Content
deriving DecidableEq

/-- Embeds the structured response of the external generation call:
a list of candidates. An empty list models a response with no candidates. -/
structure GenResponse where
  candidates : List Candidate
deriving DecidableEq

/-- Failure modes of `generateSingleImage`: `typeError` models the JavaScript
`TypeError` raised by `response.candidates[0].content` when the candidate list
is empty, and `noImage` models the explicit
`throw new Error('Image generation failed, no image data returned.')`. -/
inductive GenError where
  | typeError
  | noImage
deriving DecidableEq

/-- A default candidate used only as the `List.headD` fallback in statements
about nonempty candidate lists. -/
def anyCandidate : Candidate := ⟨⟨[]⟩⟩

/-- Embeds `getRatioDescription` from `src/services/geminiService.ts`
lines 24-31. The source `switch` lists `'9:16'` together with `default`,
both returning the vertical phrasing. -/
def getRatioDescription (ratio : AspectRatio) : String :=
  match ratio with
  | AspectRatio.r16x9 => "horizontal 16:9 landscape"
  | AspectRatio.r1x1 => "square 1:1"
  | AspectRatio.r9x16 => "vertical 9:16 portrait"

/-- Embeds the `textPrompt` template literal of `generateSingleImage`
(`src/services/geminiService.ts` lines 33-48) with its three interpolations. -/
def textPrompt (posePrompt background : String) (ratio : AspectRatio) : String :=
  "Generate a single, photorealistic, promotional-quality image.\n\n**Primary Directive: The output image\x27s aspect ratio MUST BE a "
    ++ getRatioDescription ratio
    ++ ". This is a strict, non-negotiable requirement.**\n\n**Image Content:**\n- **Person:** Must be the *exact same person* from the first input image.\n- **Doll:** Must be the *exact same jumbo doll* from the second input image.\n- **Action:** The person is "
    ++ posePrompt
    ++ ".\n- **Background:** The setting is a **"
    ++ background
    ++ "**.\n\n**Artistic Style & Constraints:**\n- **Realism:** The doll must appear very large and plush. The lighting should be soft and warm, creating a cozy and inviting atmosphere.\n- **Consistency:** Maintain the precise appearance of the person and the doll from the source images.\n- **Quality:** The final image must be high-resolution and suitable for professional promotional use.\n- **Format:** Output only the image data."

/-- Embeds the `for (const part of response.candidates[0].content.parts)`
search: the first part carrying `inlineData`, if any. -/
def firstInlinePart : List ResponsePart → Option InlineData
  | [] => none
  | part :: rest =>
    match part.inlineData with
    | some d => some d
    | none => firstInlinePart rest

/-- Embeds the response handling of `generateSingleImage`
(`src/services/geminiService.ts` lines 64-70): accessing
`response.candidates[0]` on an empty candidate list raises a JavaScript
`TypeError` (modelled as `GenError.typeError`); otherwise the first part with
`inlineData` yields a data URL, and if no part has `inlineData` the function
throws the no-image error (modelled as `GenError.noImage`). -/
def extractImage (response : GenResponse) : Except GenError String :=
  match response.candidates with
  | [] => Except.error GenError.typeError
  | c :: _ =>
    match firstInlinePart c.content.parts with
    | some d => Except.ok ("data:" ++ d.mimeType ++ ";base64," ++ d.data)
    | none => Except.error GenError.noImage

/-- Embeds `generateSingleImage` from `src/services/geminiService.ts`
lines 22-71. The external call `ai.models.generateContent` is modelled by the
`service` parameter, which receives the two image artifacts and the composed
text prompt (the three request parts) and produces the structured response. -/
def generateSingleImage (service : ImageFile → ImageFile → String → GenResponse)
    (modelImage dollImage : ImageFile) (posePrompt background : String)
    (ratio : AspectRatio) : Except GenError String :=
  extractImage (service modelImage dollImage (textPrompt posePrompt background ratio))

/-- Observable events of a generation run: a request issued to the external
service for a pose, and an `onProgress` callback invocation with an image URL. -/
inductive Event where
  | request (posePrompt : String)
  | progress (imageUrl : String)
deriving DecidableEq

/-- True exactly on `Event.progress` events. -/
def isProgressEvent : Event → Bool
  | Event.progress _ => true
  | Event.request _ => false

/-- True exactly on `Event.request` events. -/
def isRequestEvent : Event → Bool
  | Event.request _ => true
  | Event.progress _ => false

/-- The URL delivered by a successful single-image result, or `""` for a
failed one (used only to describe successful results in statements). -/
def okUrl (r : Except GenError String) : String :=
  match r with
  | Except.ok u => u
  | Except.error _ => ""

/-- The error of a failed single-image result (junk value on success). -/
def errOf (r : Except GenError String) : GenError :=
  match r with
  | Except.error e => e
  | Except.ok _ => GenError.typeError

/-- Embeds the `for (const prompt of POSES_PROMPTS)` loop body of
`generatePromotionalImages` (`src/services/geminiService.ts` lines 80-85):
each iteration awaits one request; on success `onProgress` fires and the URL
is appended; the first failure aborts the loop, discarding the accumulated
list (the thrown error propagates). The first component is the event trace
in chronological order; the second is the returned list or the error. -/
def runPoses (gen : String → Except GenError String) :
    List String → List Event × Except GenError (List String)
  | [] => ([], Except.ok [])
  | p :: ps =>
    match gen p with
    | Except.error e => ([Event.request p], Except.error e)
    | Except.ok url =>
      let rest := runPoses gen ps
      (Event.request p :: Event.progress url :: rest.1,
       match rest.2 with
       | Except.ok urls => Except.ok (url :: urls)
       | Except.error e => Except.error e)

/-- Embeds `generatePromotionalImages` from `src/services/geminiService.ts`
lines 73-87: the strictly sequential loop over `POSES_PROMPTS`. -/
def generatePromotionalImages (service : ImageFile → ImageFile → String → GenResponse)
    (modelImage dollImage : ImageFile) (background : String) (ratio : AspectRatio) :
    List Event × Except GenError (List String) :=
  runPoses
    (fun posePrompt => generateSingleImage service modelImage dollImage posePrompt background ratio)
    POSES_PROMPTS

/-- The interleaved request/progress trace of a run in which every listed
pose succeeds. -/
def poseTrace (gen : String → Except GenError String) : List String → List Event
  | [] => []
  | p :: ps => Event.request p :: Event.progress (okUrl (gen p)) :: poseTrace gen ps

/-- The URLs delivered by the `progress` events of a trace, in order. -/
def progressUrls : List Event → List String
  | [] => []
  | Event.progress u :: tr => u :: progressUrls tr
  | Event.request _ :: tr => progressUrls tr

/-- Embeds the React component state of `src/App.tsx`: the two uploaded
artifacts, the selected background and aspect ratio, and the generation
session state (`generatedImages`, `isLoading`, `error`,
`generationProgress`). -/
structure AppState where
  modelImage : Option ImageFile
  dollImage : Option ImageFile
  background : String
  aspectRatio : AspectRatio
  generatedImages : List String
  isLoading : Bool
  error : Option String
  generationProgress : Nat
deriving DecidableEq

/-- The error message set by `handleGenerate` when an artifact is missing
(`src/App.tsx` line 43). -/
def missingInputMsg : String := "Please upload both a model and a doll image."

/-- The generic failure message set by the `catch` block of `handleGenerate`
(`src/App.tsx` line 63). -/
def genericFailureMsg : String :=
  "Image generation failed. This might be due to API rate limits. Please wait a moment and try again."

/-- Embeds the state effect of one run event on the component state: a
request changes nothing; an `onProgress` invocation (`src/App.tsx`
lines 53-56) appends the image URL and increments the progress counter. -/
def applyEvent (s : AppState) : Event → AppState
  | Event.request _ => s
  | Event.progress imageUrl =>
    { s with generatedImages := s.generatedImages ++ [imageUrl],
             generationProgress := s.generationProgress + 1 }

/-- Embeds the run-start reset of `handleGenerate` (`src/App.tsx`
lines 47-50): loading on, error cleared, image list cleared, counter zeroed. -/
def resetForRun (s : AppState) : AppState :=
  { s with isLoading := true, error := none,
           generatedImages := [], generationProgress := 0 }

/-- Embeds `handleGenerate` from `src/App.tsx` lines 40-67. The missing-input
guard returns early, touching only `error`; otherwise the state is reset, the
sequential run executes (its trace driving the `onProgress` state updates),
the `catch` block sets the generic failure message on any thrown error, and
the `finally` block clears the loading flag and the progress counter. The
second component is the run's event trace (empty when no run starts). -/
def handleGenerate (service : ImageFile → ImageFile → String → GenResponse)
    (s : AppState) : AppState × List Event :=
  match s.modelImage, s.dollImage with
  | some mi, some di =>
    let run := generatePromotionalImages service mi di s.background s.aspectRatio
    let s1 := run.1.foldl applyEvent (resetForRun s)
    let s2 := match run.2 with
      | Except.ok _ => s1
      | Except.error _ => { s1 with error := some genericFailureMsg }
    ({ s2 with isLoading := false, generationProgress := 0 }, run.1)
  | _, _ => ({ s with error := some missingInputMsg }, [])

/-- The draw rectangle computed by `processImageTo9x16`. -/
structure DrawRect where
  x : ℚ
  y : ℚ
  width : ℚ
  height : ℚ
deriving DecidableEq

/-- Embeds `targetAspectRatio = 9 / 16` from `src/App.tsx` line 75. -/
def targetAspectRatio : ℚ := 9 / 16

/-- Embeds `canvasWidth = 720` from `src/App.tsx` line 78. -/
def canvasWidth : ℚ := 720

/-- Embeds `canvasHeight = 1280` from `src/App.tsx` line 79. -/
def canvasHeight : ℚ := 1280

/-- Embeds the scaling and centering arithmetic of `processImageTo9x16`
(`src/App.tsx` lines 92-106): both draw dimensions start at the canvas
dimensions; if the image is wider than the target ratio the height shrinks,
otherwise the width shrinks; the origin centers the rectangle. JavaScript
number arithmetic is modelled with exact rationals. -/
def computeDrawRect (w h : ℚ) : DrawRect :=
  let imageAspectRatio := w / h
  let drawWidth :=
    if targetAspectRatio < imageAspectRatio then canvasWidth
    else canvasHeight * imageAspectRatio
  let drawHeight :=
    if targetAspectRatio < imageAspectRatio then canvasWidth / imageAspectRatio
    else canvasHeight
  { x := (canvasWidth - drawWidth) / 2
    y := (canvasHeight - drawHeight) / 2
    width := drawWidth
    height := drawHeight }

/-- Embeds the JavaScript `String.prototype.split(',')` on a character list:
comma-separated segments, with empty segments preserved. -/
def splitCommaAux : List Char → List (List Char)
  | [] => [[]]
  | c :: rest =>
    if c = ',' then [] :: splitCommaAux rest
    else
      match splitCommaAux rest with
      | [] => [[c]]
      | seg :: segs => (c :: seg) :: segs

/-- Embeds `newDataUrl.split(',')` on Lean strings. -/
def jsSplitComma (s : String) : List String :=
  (splitCommaAux s.data).map (fun l => String.mk l)

/-- Embeds the artifact construction of `processImageTo9x16` (`src/App.tsx`
lines 110-116). The canvas `toDataURL(mimeType, 0.95)` encode pass is
modelled by its two outputs `encMime` and `payload`: it returns the string
`"data:" ++ encMime ++ ";base64," ++ payload` (the browser may substitute
`encMime` for an unsupported requested type). The source then stores
`newDataUrl.split(',')[1]` as `base64`, the input media type as `mimeType`,
and the whole data URL as `previewUrl`. -/
def processedImageArtifact (encMime payload mimeType : String) : ImageFile :=
  let newDataUrl := "data:" ++ encMime ++ ";base64," ++ payload
  { base64 := (jsSplitComma newDataUrl).getD 1 ""
    mimeType := mimeType
    previewUrl := newDataUrl }

/-- Outcome of the `FileReader.readAsDataURL` read in `fileHandler`:
either the data URL or a read failure (`reader.onerror`). -/
inductive ReadResult where
  | ok (dataUrl : String)
  | err
deriving DecidableEq

/-- The message set by `reader.onerror` (`src/App.tsx` line 140). -/
def readFileMsg : String := "Could not read the selected file."

/-- The fallback message of the `catch` block of `fileHandler`
(`src/App.tsx` line 134). -/
def unknownProcessMsg : String := "An unknown error occurred during image processing."

/-- Embeds `fileHandler` from `src/App.tsx` lines 124-143. The asynchronous
file read is modelled by `read`, the `processImageTo9x16` promise by
`process` (its error `message` string, with the JavaScript `||` falsy
fallback for the empty string), and the slot setter (`setModelImage` or
`setDollImage`) by `callback`. The boolean records whether the callback was
invoked. -/
def fileHandler (read : ReadResult) (process : String → Except String ImageFile)
    (callback : ImageFile → AppState → AppState) (s : AppState) : AppState × Bool :=
  match read with
  | ReadResult.err => ({ s with error := some readFileMsg }, false)
  | ReadResult.ok dataUrl =>
    match process dataUrl with
    | Except.error msg =>
      ({ s with error := some (if msg = "" then unknownProcessMsg else msg) }, false)
    | Except.ok img => (callback img s, true)

/-- A sample normalized model artifact, used in concrete witnesses. -/
def sampleModel : ImageFile :=
  ⟨"QUJD", "image/png", "data:image/png;base64,QUJD"⟩

/-- A sample normalized doll artifact, used in concrete witnesses. -/
def sampleDoll : ImageFile :=
  ⟨"REVG", "image/jpeg", "data:image/jpeg;base64,REVG"⟩

/-- A service that answers every request with one candidate holding one
inline-image part: every pose succeeds. -/
def goodService : ImageFile → ImageFile → String → GenResponse :=
  fun _ _ _ => ⟨[⟨⟨[⟨some ⟨"image/png", "QUJD"⟩⟩]⟩⟩]⟩

/-- A service that answers every request with one candidate whose content
has no parts: every pose fails with the no-image error. -/
def noImageService : ImageFile → ImageFile → String → GenResponse :=
  fun _ _ _ => ⟨[⟨⟨[]⟩⟩]⟩

/-- A response with an empty candidate list. -/
def emptyCandidatesResponse : GenResponse := ⟨[]⟩

/-- A response with one candidate whose content has no parts. -/
def noPartsResponse : GenResponse := ⟨[⟨⟨[]⟩⟩]⟩

/-- A sample application state with both artifacts present and stale session
data from a previous run, used in concrete witnesses. -/
def sampleState : AppState :=
  { modelImage := some sampleModel
    dollImage := some sampleDoll
    background := "A beautiful white sand beach with turquoise water"
    aspectRatio := AspectRatio.r9x16
    generatedImages := ["stale-1", "stale-2"]
    isLoading := false
    error := some "stale error"
    generationProgress := 4 }

/-- A second sample state agreeing with `sampleState` on the inputs but with
different stale session data. -/
def sampleState2 : AppState :=
  { sampleState with generatedImages := ["other"], error := none, generationProgress := 9 }

/-- A sample state with the doll artifact missing. -/
def missingDollState : AppState :=
  { sampleState with dollImage := none }

/-! ## Helper lemmas about the run trace and the state fold -/

/-- When every listed pose succeeds, the run produces the fully interleaved
request/progress trace and the ordered list of all URLs. -/
theorem runPoses_all_ok (gen : String → Except GenError String) (ps : List String)
    (h : ∀ p ∈ ps, ∃ u, gen p = Except.ok u) :
    runPoses gen ps = (poseTrace gen ps, Except.ok (ps.map fun p => okUrl (gen p))) := by
  induction ps with
  | nil => rfl
  | cons p ps ih =>
    obtain ⟨u, hu⟩ := h p (List.mem_cons_self p ps)
    have hrest := ih (fun q hq => h q (List.mem_cons_of_mem p hq))
    simp [runPoses, poseTrace, hu, hrest, okUrl]

/-- When every pose in `qs` succeeds and pose `p` fails, the run over
`qs ++ p :: rest` produces the successful prefix trace followed by the single
request for `p`, and the overall result is the error of `p`; no event for any
pose of `rest` occurs. -/
theorem runPoses_fail (gen : String → Except GenError String) (qs rest : List String)
    (p : String) (hok : ∀ q ∈ qs, ∃ u, gen q = Except.ok u)
    (hfail : ∀ u, gen p ≠ Except.ok u) :
    runPoses gen (qs ++ p :: rest) =
      (poseTrace gen qs ++ [Event.request p], Except.error (errOf (gen p))) := by
  induction qs with
  | nil =>
    cases hgen : gen p with
    | ok u => exact absurd hgen (hfail u)
    | error e => simp [runPoses, poseTrace, hgen, errOf]
  | cons q qs ih =>
    obtain ⟨u, hu⟩ := hok q (List.mem_cons_self q qs)
    have hrest := ih (fun r hr => hok r (List.mem_cons_of_mem q hr))
    simp [runPoses, poseTrace, hu, hrest, okUrl]

/-- The run result is a success exactly when every listed pose succeeds. -/
theorem runPoses_ok_iff (gen : String → Except GenError String) (ps : List String) :
    (∃ l, (runPoses gen ps).2 = Except.ok l) ↔ ∀ p ∈ ps, ∃ u, gen p = Except.ok u := by
  induction ps with
  | nil => simp [runPoses]
  | cons p ps ih =>
    cases hgen : gen p with
    | error e =>
      simp only [runPoses, hgen]
      constructor
      · rintro ⟨l, hl⟩; cases hl
      · intro h
        obtain ⟨u, hu⟩ := h p (List.mem_cons_self p ps)
        rw [hgen] at hu; cases hu
    | ok u =>
      simp only [runPoses, hgen]
      constructor
      · rintro ⟨l, hl⟩
        intro q hq
        rcases List.mem_cons.mp hq with hq | hq
        · exact ⟨u, hq ▸ hgen⟩
        · refine ih.mp ?_ q hq
          cases hrest : (runPoses gen ps).2 with
          | ok l2 => exact ⟨l2, rfl⟩
          | error e => rw [hrest] at hl; cases hl
      · intro h
        obtain ⟨l, hl⟩ := ih.mpr (fun q hq => h q (List.mem_cons_of_mem p hq))
        exact ⟨u :: l, by simp [hl]⟩

/-- The trace of an all-successful prefix consists of one request and one
progress event per pose; its progress URLs are the result URLs in order. -/
theorem progressUrls_poseTrace (gen : String → Except GenError String) (ps : List String) :
    progressUrls (poseTrace gen ps) = ps.map fun p => okUrl (gen p) := by
  induction ps with
  | nil => rfl
  | cons p ps ih => simp [poseTrace, progressUrls, ih]

/-- Progress URLs distribute over trace concatenation. -/
theorem progressUrls_append (tr1 tr2 : List Event) :
    progressUrls (tr1 ++ tr2) = progressUrls tr1 ++ progressUrls tr2 := by
  induction tr1 with
  | nil => rfl
  | cons e tr ih => cases e <;> simp [progressUrls, ih]

/-- The requests of an all-successful prefix trace are the poses in order. -/
theorem filter_request_poseTrace (gen : String → Except GenError String) (ps : List String) :
    (poseTrace gen ps).filter isRequestEvent = ps.map Event.request := by
  induction ps with
  | nil => rfl
  | cons p ps ih => simp [poseTrace, List.filter, isRequestEvent, ih]

/-- The progress events of an all-successful prefix trace, one per pose. -/
theorem filter_progress_poseTrace (gen : String → Except GenError String) (ps : List String) :
    (poseTrace gen ps).filter isProgressEvent
      = ps.map fun p => Event.progress (okUrl (gen p)) := by
  induction ps with
  | nil => rfl
  | cons p ps ih => simp [poseTrace, List.filter, isProgressEvent, isRequestEvent, ih]

/-- Folding the per-event state effect over a trace: the image list gains
exactly the progress URLs, the counter gains exactly their number, and every
other field is untouched. -/
theorem foldl_applyEvent_fields (tr : List Event) (s : AppState) :
    (tr.foldl applyEvent s).generatedImages = s.generatedImages ++ progressUrls tr
    ∧ (tr.foldl applyEvent s).generationProgress
        = s.generationProgress + (progressUrls tr).length
    ∧ (tr.foldl applyEvent s).isLoading = s.isLoading
    ∧ (tr.foldl applyEvent s).error = s.error
    ∧ (tr.foldl applyEvent s).modelImage = s.modelImage
    ∧ (tr.foldl applyEvent s).dollImage = s.dollImage
    ∧ (tr.foldl applyEvent s).background = s.background
    ∧ (tr.foldl applyEvent s).aspectRatio = s.aspectRatio := by
  induction tr generalizing s with
  | nil => simp [progressUrls]
  | cons e tr ih =>
    cases e with
    | request p =>
      simpa [List.foldl, applyEvent, progressUrls] using ih s
    | progress u =>
      have h := ih (applyEvent s (Event.progress u))
      obtain ⟨h1, h2, h3, h4, h5, h6, h7, h8⟩ := h
      refine ⟨?_, ?_, ?_, ?_, ?_, ?_, ?_, ?_⟩ <;>
        simp_all [List.foldl, applyEvent, progressUrls] <;> omega

/-- Unfolding `handleGenerate` when both artifacts are present. -/
theorem handleGenerate_some (service : ImageFile → ImageFile → String → GenResponse)
    (s : AppState) (mi di : ImageFile)
    (hm : s.modelImage = some mi) (hd : s.dollImage = some di) :
    handleGenerate service s =
      (let run := generatePromotionalImages service mi di s.background s.aspectRatio
       let s1 := run.1.foldl applyEvent (resetForRun s)
       let s2 := match run.2 with
         | Except.ok _ => s1
         | Except.error _ => { s1 with error := some genericFailureMsg }
       ({ s2 with isLoading := false, generationProgress := 0 }, run.1)) := by
  simp only [handleGenerate, hm, hd]

/-- A search over the parts finds nothing exactly when no part carries
inline image data. -/
theorem firstInlinePart_eq_none_iff (parts : List ResponsePart) :
    firstInlinePart parts = none ↔ ∀ part ∈ parts, part.inlineData = none := by
  induction parts with
  | nil => simp [firstInlinePart]
  | cons part rest ih =>
    cases hpart : part.inlineData with
    | some d => simp [firstInlinePart, hpart]
    | none => simp [firstInlinePart, hpart, ih]

/-! ## Claim theorems -/

/-- C1: for every run, the result is the full list exactly when all six poses
succeed; and when they do, the run issues the six pose requests one at a time
in catalog order, invoking the progress callback exactly once per pose, after
that pose's request and before the next request, and returns the ordered
six-element list of results. -/
theorem generateAll_catalog_order (service : ImageFile → ImageFile → String → GenResponse)
    (mi di : ImageFile) (bg : String) (ratio : AspectRatio) :
    ((∃ l, (generatePromotionalImages service mi di bg ratio).2 = Except.ok l)
       ↔ ∀ p ∈ POSES_PROMPTS, ∃ u, generateSingleImage service mi di p bg ratio = Except.ok u)
    ∧ ((∀ p ∈ POSES_PROMPTS, ∃ u, generateSingleImage service mi di p bg ratio = Except.ok u) →
        generatePromotionalImages service mi di bg ratio =
          (poseTrace (fun p => generateSingleImage service mi di p bg ratio) POSES_PROMPTS,
           Except.ok (POSES_PROMPTS.map fun p => okUrl (generateSingleImage service mi di p bg ratio)))
        ∧ (POSES_PROMPTS.map fun p => okUrl (generateSingleImage service mi di p bg ratio)).length
            = 6) := by
  constructor
  · exact runPoses_ok_iff _ POSES_PROMPTS
  · intro h
    refine ⟨runPoses_all_ok _ POSES_PROMPTS h, ?_⟩
    simp [POSES_PROMPTS]

/-- C1 witness: with a service for which every pose succeeds, the run issues
exactly the six catalog requests in order, each immediately followed by its
progress callback, and returns the six results in order. -/
theorem generateAll_catalog_order_witness :
    generatePromotionalImages goodService sampleModel sampleDoll
        "A beautiful white sand beach with turquoise water" AspectRatio.r9x16
      = ([Event.request "hugging the doll tightly while standing, full body shot.",
          Event.progress "data:image/png;base64,QUJD",
          Event.request "sitting on a fluffy rug on the floor, joyfully embracing the doll.",
          Event.progress "data:image/png;base64,QUJD",
          Event.request "in a close-up shot, smiling warmly while hugging the doll.",
          Event.progress "data:image/png;base64,QUJD",
          Event.request "playfully trying to lift the oversized doll off the ground while hugging it.",
          Event.progress "data:image/png;base64,QUJD",
          Event.request "peeking over the top of the jumbo doll while hugging it from behind.",
          Event.progress "data:image/png;base64,QUJD",
          Event.request "lying on a cozy bed, cuddling with the jumbo doll.",
          Event.progress "data:image/png;base64,QUJD"],
         Except.ok ["data:image/png;base64,QUJD", "data:image/png;base64,QUJD",
                    "data:image/png;base64,QUJD", "data:image/png;base64,QUJD",
                    "data:image/png;base64,QUJD", "data:image/png;base64,QUJD"]) :=
  (((generateAll_catalog_order goodService sampleModel sampleDoll
        "A beautiful white sand beach with turquoise water" AspectRatio.r9x16).2
      (fun _ _ => ⟨"data:image/png;base64,QUJD", rfl⟩)).1).trans rfl

/-- C2: when every pose of the prefix `qs` (of length `k`) succeeds and the
next pose `p` fails, the run trace holds exactly `k` progress events and
exactly the `k + 1` requests for the poses up to and including `p` (none for
any later pose), and the caller's final state retains exactly the `k`
streamed images, with the loading flag false, the progress counter reset to
zero, and the single generic rate-limit failure message set. -/
theorem pose_failure_aborts_run (service : ImageFile → ImageFile → String → GenResponse)
    (s : AppState) (mi di : ImageFile) (qs rest : List String) (p : String) (k : Nat)
    (hm : s.modelImage = some mi) (hd : s.dollImage = some di)
    (hsplit : POSES_PROMPTS = qs ++ p :: rest)
    (hk : qs.length = k)
    (hok : ∀ q ∈ qs, ∃ u,
        generateSingleImage service mi di q s.background s.aspectRatio = Except.ok u)
    (hfail : ∀ u,
        generateSingleImage service mi di p s.background s.aspectRatio ≠ Except.ok u) :
    ((handleGenerate service s).2.filter isProgressEvent).length = k
    ∧ (handleGenerate service s).2.filter isRequestEvent = (qs ++ [p]).map Event.request
    ∧ (handleGenerate service s).2
        = poseTrace (fun q => generateSingleImage service mi di q s.background s.aspectRatio) qs
            ++ [Event.request p]
    ∧ (handleGenerate service s).1.generatedImages
        = qs.map (fun q => okUrl (generateSingleImage service mi di q s.background s.aspectRatio))
    ∧ (handleGenerate service s).1.generatedImages.length = k
    ∧ (handleGenerate service s).1.isLoading = false
    ∧ (handleGenerate service s).1.generationProgress = 0
    ∧ (handleGenerate service s).1.error = some genericFailureMsg := by
  have hgen : generatePromotionalImages service mi di s.background s.aspectRatio
      = (poseTrace (fun q => generateSingleImage service mi di q s.background s.aspectRatio) qs
           ++ [Event.request p],
         Except.error (errOf (generateSingleImage service mi di p s.background s.aspectRatio))) := by
    unfold generatePromotionalImages
    rw [hsplit]
    exact runPoses_fail _ qs rest p hok hfail
  have hH : handleGenerate service s
      = ({ ((poseTrace (fun q => generateSingleImage service mi di q s.background s.aspectRatio) qs
               ++ [Event.request p]).foldl applyEvent (resetForRun s)) with
             error := some genericFailureMsg, isLoading := false, generationProgress := 0 },
         poseTrace (fun q => generateSingleImage service mi di q s.background s.aspectRatio) qs
           ++ [Event.request p]) := by
    rw [handleGenerate_some service s mi di hm hd, hgen]
  obtain ⟨hImg, -, -, -, -, -, -, -⟩ :=
    foldl_applyEvent_fields
      (poseTrace (fun q => generateSingleImage service mi di q s.background s.aspectRatio) qs
        ++ [Event.request p]) (resetForRun s)
  have hUrls : progressUrls
      (poseTrace (fun q => generateSingleImage service mi di q s.background s.aspectRatio) qs
        ++ [Event.request p])
      = qs.map (fun q => okUrl (generateSingleImage service mi di q s.background s.aspectRatio)) := by
    rw [progressUrls_append, progressUrls_poseTrace]
    simp [progressUrls]
  rw [hH]
  refine ⟨?_, ?_, rfl, ?_, ?_, rfl, rfl, rfl⟩
  · rw [List.filter_append, filter_progress_poseTrace]
    simp [isProgressEvent, hk]
  · rw [List.filter_append, filter_request_poseTrace]
    simp [isRequestEvent]
  · simpa [resetForRun, hUrls] using hImg
  · have := hImg
    rw [hUrls] at this
    simp only [this]
    simp [resetForRun, hk]

/-- C2 witness: with a service whose responses never contain image data, the
very first pose fails, so the run issues only the first catalog request, no
progress callback fires, and the final state has no images, loading off,
progress zero, and the generic failure message. -/
theorem pose_failure_aborts_run_witness :
    (handleGenerate noImageService sampleState).2
        = [Event.request "hugging the doll tightly while standing, full body shot."]
    ∧ (handleGenerate noImageService sampleState).1.generatedImages = []
    ∧ (handleGenerate noImageService sampleState).1.isLoading = false
    ∧ (handleGenerate noImageService sampleState).1.generationProgress = 0
    ∧ (handleGenerate noImageService sampleState).1.error = some genericFailureMsg := by
  have h := pose_failure_aborts_run noImageService sampleState sampleModel sampleDoll
      [] [ "sitting on a fluffy rug on the floor, joyfully embracing the doll.",
           "in a close-up shot, smiling warmly while hugging the doll.",
           "playfully trying to lift the oversized doll off the ground while hugging it.",
           "peeking over the top of the jumbo doll while hugging it from behind.",
           "lying on a cozy bed, cuddling with the jumbo doll." ]
      "hugging the doll tightly while standing, full body shot." 0
      rfl rfl rfl rfl
      (fun q hq => absurd hq (List.not_mem_nil q))
      (fun u hu => Except.noConfusion hu)
  exact ⟨h.2.2.1.trans rfl, h.2.2.2.1.trans rfl, h.2.2.2.2.2.1, h.2.2.2.2.2.2.1,
         h.2.2.2.2.2.2.2⟩

/-- C3 counterexample: a response with an empty candidate list carries no
inline image data in any content part, yet the call does not fail with the
no-image error (it fails with the property-access type error instead). -/
theorem empty_candidates_not_noImage :
    emptyCandidatesResponse.candidates = []
    ∧ generateSingleImage (fun _ _ _ => emptyCandidatesResponse) sampleModel sampleDoll
        "pose" "bg" AspectRatio.r9x16 ≠ Except.error GenError.noImage := by
  refine ⟨rfl, ?_⟩
  intro h
  have h2 : GenError.typeError = GenError.noImage := Except.error.inj h
  cases h2

/-- C3 (amended): an empty candidate list fails with the type error raised by
accessing the first candidate; a nonempty candidate list yields the data URL
built from the first part of the first candidate that carries inline image
data, and fails with the no-image error exactly when no content part of the
first candidate carries inline image data. -/
theorem extract_noImage_characterization (resp : GenResponse) (mi di : ImageFile)
    (p bg : String) (ratio : AspectRatio) :
    (resp.candidates = [] →
       generateSingleImage (fun _ _ _ => resp) mi di p bg ratio
         = Except.error GenError.typeError)
    ∧ (resp.candidates ≠ [] →
        generateSingleImage (fun _ _ _ => resp) mi di p bg ratio
          = Option.elim (firstInlinePart ((resp.candidates.headD anyCandidate).content.parts))
              (Except.error GenError.noImage)
              (fun d => Except.ok ("data:" ++ d.mimeType ++ ";base64," ++ d.data)))
    ∧ (generateSingleImage (fun _ _ _ => resp) mi di p bg ratio = Except.error GenError.noImage
        ↔ resp.candidates ≠ []
          ∧ ∀ part ∈ (resp.candidates.headD anyCandidate).content.parts,
              part.inlineData = none) := by
  obtain ⟨cands⟩ := resp
  cases cands with
  | nil =>
    refine ⟨fun _ => rfl, fun hne => absurd rfl hne, ?_⟩
    constructor
    · intro h
      have h2 : GenError.typeError = GenError.noImage := Except.error.inj h
      cases h2
    · rintro ⟨hne, -⟩
      exact absurd rfl hne
  | cons c cs =>
    have hbase : generateSingleImage (fun _ _ _ => GenResponse.mk (c :: cs)) mi di p bg ratio
        = extractImage (GenResponse.mk (c :: cs)) := rfl
    refine ⟨?_, ?_, ?_⟩
    · intro h
      cases h
    · intro _
      rw [hbase]
      cases hfi : firstInlinePart c.content.parts with
      | none => simp [extractImage, hfi]
      | some d => simp [extractImage, hfi]
    · rw [hbase]
      cases hfi : firstInlinePart c.content.parts with
      | none =>
        simp only [extractImage, hfi]
        constructor
        · intro _
          refine ⟨by simp, ?_⟩
          simpa using (firstInlinePart_eq_none_iff c.content.parts).mp hfi
        · intro _
          trivial
      | some d =>
        simp only [extractImage, hfi]
        constructor
        · intro h
          cases h
        · rintro ⟨-, hall⟩
          have : firstInlinePart c.content.parts = none := by
            refine (firstInlinePart_eq_none_iff c.content.parts).mpr ?_
            simpa using hall
          rw [this] at hfi
          cases hfi

/-- C3 witness: a response with one candidate whose content has no parts
carries no inline data, so the call fails with exactly the no-image error. -/
theorem extract_noImage_characterization_witness :
    generateSingleImage (fun _ _ _ => noPartsResponse) sampleModel sampleDoll
        "pose" "bg" AspectRatio.r9x16 = Except.error GenError.noImage :=
  (extract_noImage_characterization noPartsResponse sampleModel sampleDoll "pose" "bg"
      AspectRatio.r9x16).2.2.mpr ⟨by decide, by decide⟩

/-- C4: when the model artifact or the doll artifact is absent, the handler
sets exactly the missing-input message, issues no request, and leaves the
generated-image list, progress counter, and loading flag unchanged. -/
theorem missing_input_blocks_generation (service : ImageFile → ImageFile → String → GenResponse)
    (s : AppState) (h : s.modelImage = none ∨ s.dollImage = none) :
    handleGenerate service s = ({ s with error := some missingInputMsg }, [])
    ∧ (handleGenerate service s).1.generatedImages = s.generatedImages
    ∧ (handleGenerate service s).1.generationProgress = s.generationProgress
    ∧ (handleGenerate service s).1.isLoading = s.isLoading
    ∧ (handleGenerate service s).1.error = some missingInputMsg
    ∧ (handleGenerate service s).2 = [] := by
  have hmain : handleGenerate service s = ({ s with error := some missingInputMsg }, []) := by
    rcases hmod : s.modelImage with - | mi <;> rcases hdol : s.dollImage with - | di <;>
      simp only [handleGenerate, hmod, hdol] <;>
      first
        | rfl
        | (rcases h with h | h <;> simp_all)
  rw [hmain]
  exact ⟨rfl, rfl, rfl, rfl, rfl, rfl⟩

/-- C4 witness: with the doll artifact missing, the handler only sets the
missing-input message; the session fields and the trace show no run began. -/
theorem missing_input_blocks_generation_witness :
    handleGenerate goodService missingDollState
        = ({ missingDollState with error := some missingInputMsg }, [])
    ∧ (handleGenerate goodService missingDollState).1.generatedImages
        = missingDollState.generatedImages
    ∧ (handleGenerate goodService missingDollState).1.error = some missingInputMsg
    ∧ (handleGenerate goodService missingDollState).2 = [] := by
  have h := missing_input_blocks_generation goodService missingDollState (Or.inr rfl)
  exact ⟨h.1, h.2.1, h.2.2.2.2.1, h.2.2.2.2.2⟩

/-- C5: for a source image of positive width and height, the draw rectangle
fits inside the fixed 720 by 1280 canvas without cropping, preserving the
source aspect ratio: a relatively wide image is constrained by width with the
height shrunk proportionally, any other image is constrained by height with
the width shrunk proportionally. -/
theorem letterbox_fit (w h : ℚ) (hw : 0 < w) (hh : 0 < h) :
    (9 / 16 < w / h →
      (computeDrawRect w h).width = 720
      ∧ (computeDrawRect w h).height = 720 / (w / h)
      ∧ (computeDrawRect w h).height ≤ 1280)
    ∧ (¬ 9 / 16 < w / h →
      (computeDrawRect w h).height = 1280
      ∧ (computeDrawRect w h).width = 1280 * (w / h)
      ∧ (computeDrawRect w h).width ≤ 720)
    ∧ (computeDrawRect w h).width / (computeDrawRect w h).height = w / h := by
  have hr : 0 < w / h := div_pos hw hh
  by_cases hcmp : (9 : ℚ) / 16 < w / h
  · have hwidth : (computeDrawRect w h).width = 720 := by
      simp [computeDrawRect, targetAspectRatio, canvasWidth, canvasHeight, hcmp]
    have hheight : (computeDrawRect w h).height = 720 / (w / h) := by
      simp [computeDrawRect, targetAspectRatio, canvasWidth, canvasHeight, hcmp]
    refine ⟨fun _ => ⟨hwidth, hheight, ?_⟩, fun hcon => absurd hcmp hcon, ?_⟩
    · rw [hheight, div_le_iff₀ hr]
      linarith
    · rw [hwidth, hheight, div_div_eq_mul_div, mul_comm, mul_div_assoc,
          div_self (by norm_num : (720 : ℚ) ≠ 0), mul_one]
  · have hwidth : (computeDrawRect w h).width = 1280 * (w / h) := by
      simp [computeDrawRect, targetAspectRatio, canvasWidth, canvasHeight, hcmp]
    have hheight : (computeDrawRect w h).height = 1280 := by
      simp [computeDrawRect, targetAspectRatio, canvasWidth, canvasHeight, hcmp]
    have hle : w / h ≤ 9 / 16 := not_lt.mp hcmp
    refine ⟨fun hcon => absurd hcon hcmp, fun _ => ⟨hheight, hwidth, ?_⟩, ?_⟩
    · rw [hwidth]
      linarith
    · rw [hwidth, hheight, mul_comm, mul_div_assoc,
          div_self (by norm_num : (1280 : ℚ) ≠ 0), mul_one]

/-- C5 witness: a 4000 by 2000 landscape source is wider than 9:16, so the
draw rectangle spans the full canvas width with a proportionally shrunk
height that fits within the canvas. -/
theorem letterbox_fit_witness :
    (computeDrawRect 4000 2000).width = 720
    ∧ (computeDrawRect 4000 2000).height = 720 / ((4000 : ℚ) / 2000)
    ∧ (computeDrawRect 4000 2000).height ≤ 1280 :=
  (letterbox_fit 4000 2000 (by norm_num) (by norm_num)).1 (by norm_num)

/-- C6: for every source size, the draw rectangle is centered on both axes of
the 720 by 1280 canvas: the origin is the exact midpoint offset, so the left
margin equals the right margin and the top margin equals the bottom margin. -/
theorem letterbox_centered (w h : ℚ) :
    (computeDrawRect w h).x = (720 - (computeDrawRect w h).width) / 2
    ∧ (computeDrawRect w h).y = (1280 - (computeDrawRect w h).height) / 2
    ∧ 720 - ((computeDrawRect w h).x + (computeDrawRect w h).width) = (computeDrawRect w h).x
    ∧ 1280 - ((computeDrawRect w h).y + (computeDrawRect w h).height) = (computeDrawRect w h).y := by
  refine ⟨rfl, rfl, ?_, ?_⟩ <;>
    · simp only [computeDrawRect, canvasWidth, canvasHeight, targetAspectRatio]
      ring

/-- Splitting a comma-free character list yields a single segment. -/
theorem splitCommaAux_of_not_mem (l : List Char) (h : ',' ∉ l) :
    splitCommaAux l = [l] := by
  induction l with
  | nil => rfl
  | cons c rest ih =>
    have hc : ¬ c = ',' := by
      intro hc
      subst hc
      exact h (List.mem_cons_self _ _)
    have hrest : ',' ∉ rest := fun hr => h (List.mem_cons_of_mem c hr)
    simp [splitCommaAux, hc, ih hrest]

/-- Splitting at the first comma after a comma-free prefix separates the
prefix from the rest. -/
theorem splitCommaAux_append_comma (a b : List Char) (ha : ',' ∉ a) :
    splitCommaAux (a ++ ',' :: b) = a :: splitCommaAux b := by
  induction a with
  | nil => simp [splitCommaAux]
  | cons c rest ih =>
    have hc : ¬ c = ',' := by
      intro hc
      subst hc
      exact ha (List.mem_cons_self _ _)
    have hrest : ',' ∉ rest := fun hr => ha (List.mem_cons_of_mem c hr)
    simp [splitCommaAux, hc, ih hrest]

/-- C7: the artifact produced by the single encode pass is coherent: its
preview URL is exactly the data URL whose suffix after the comma is the
stored base64 payload, and the stored media type is the input media type
(for any encoder media type and payload free of commas, as base64 data and
media types are). -/
theorem artifact_payload_preview_coherent (encMime payload mimeType : String)
    (h1 : ',' ∉ encMime.data) (h2 : ',' ∉ payload.data) :
    (processedImageArtifact encMime payload mimeType).previewUrl
      = "data:" ++ encMime ++ ";base64,"
          ++ (processedImageArtifact encMime payload mimeType).base64
    ∧ (processedImageArtifact encMime payload mimeType).base64 = payload
    ∧ (processedImageArtifact encMime payload mimeType).mimeType = mimeType := by
  have e1 : ("data:" : String).data = ['d', 'a', 't', 'a', ':'] := rfl
  have e2 : ((";base64," : String)).data = [';', 'b', 'a', 's', 'e', '6', '4', ','] := rfl
  have hb0 : (jsSplitComma ("data:" ++ encMime ++ ";base64," ++ payload)).getD 1 ""
      = payload := by
    have hdata : ("data:" ++ encMime ++ ";base64," ++ payload).data
        = (['d', 'a', 't', 'a', ':'] ++ encMime.data ++ [';', 'b', 'a', 's', 'e', '6', '4'])
            ++ ',' :: payload.data := by
      simp [String.data_append, e1, e2, List.append_assoc]
    have hA : ',' ∉ ['d', 'a', 't', 'a', ':'] ++ encMime.data
        ++ [';', 'b', 'a', 's', 'e', '6', '4'] := by
      intro hmem
      rcases List.mem_append.mp hmem with hmem | hmem
      · rcases List.mem_append.mp hmem with hmem | hmem
        · simp at hmem
        · exact h1 hmem
      · simp at hmem
    unfold jsSplitComma
    rw [hdata, splitCommaAux_append_comma _ _ hA, splitCommaAux_of_not_mem _ h2]
    rfl
  have hb : (processedImageArtifact encMime payload mimeType).base64 = payload := hb0
  have hp : (processedImageArtifact encMime payload mimeType).previewUrl
      = "data:" ++ encMime ++ ";base64," ++ payload := rfl
  refine ⟨?_, hb, rfl⟩
  rw [hp, hb]

/-- C7 witness: a concrete PNG encode pass produces a coherent artifact. -/
theorem artifact_payload_preview_coherent_witness :
    (processedImageArtifact "image/png" "QUJD" "image/png").previewUrl
      = "data:" ++ "image/png" ++ ";base64,"
          ++ (processedImageArtifact "image/png" "QUJD" "image/png").base64
    ∧ (processedImageArtifact "image/png" "QUJD" "image/png").base64 = "QUJD"
    ∧ (processedImageArtifact "image/png" "QUJD" "image/png").mimeType = "image/png" :=
  artifact_payload_preview_coherent "image/png" "QUJD" "image/png"
    (by decide) (by decide)

/-- C8: the run-start reset clears the image list, the error, and the
progress counter; consequently two generation attempts that agree on the
uploaded artifacts, background, and aspect ratio produce identical traces and
identical final session fields regardless of any stale images, error, or
counter left from a prior run. -/
theorem run_start_reset (service : ImageFile → ImageFile → String → GenResponse)
    (s s2 : AppState) (mi di : ImageFile)
    (hm : s.modelImage = some mi) (hd : s.dollImage = some di)
    (hm2 : s2.modelImage = some mi) (hd2 : s2.dollImage = some di)
    (hbg : s2.background = s.background) (har : s2.aspectRatio = s.aspectRatio) :
    (resetForRun s).generatedImages = []
    ∧ (resetForRun s).error = none
    ∧ (resetForRun s).generationProgress = 0
    ∧ (handleGenerate service s).2 = (handleGenerate service s2).2
    ∧ (handleGenerate service s).1.generatedImages = (handleGenerate service s2).1.generatedImages
    ∧ (handleGenerate service s).1.generationProgress
        = (handleGenerate service s2).1.generationProgress
    ∧ (handleGenerate service s).1.error = (handleGenerate service s2).1.error
    ∧ (handleGenerate service s).1.isLoading = (handleGenerate service s2).1.isLoading := by
  have hrun : generatePromotionalImages service mi di s2.background s2.aspectRatio
      = generatePromotionalImages service mi di s.background s.aspectRatio := by
    rw [hbg, har]
  have hH := handleGenerate_some service s mi di hm hd
  have hH2 := handleGenerate_some service s2 mi di hm2 hd2
  rw [hrun] at hH2
  rw [hH, hH2]
  obtain ⟨hImg, hProg, hLoad, hErr, -, -, -, -⟩ :=
    foldl_applyEvent_fields
      (generatePromotionalImages service mi di s.background s.aspectRatio).1 (resetForRun s)
  obtain ⟨hImg2, hProg2, hLoad2, hErr2, -, -, -, -⟩ :=
    foldl_applyEvent_fields
      (generatePromotionalImages service mi di s.background s.aspectRatio).1 (resetForRun s2)
  refine ⟨rfl, rfl, rfl, rfl, ?_, ?_, ?_, ?_⟩ <;>
    cases hres : (generatePromotionalImages service mi di s.background s.aspectRatio).2 <;>
      simp_all [resetForRun]

/-- C8 witness: two states with the same inputs but different stale session
data yield identical traces, image lists, counters, errors, and loading
flags, and the reset state is fully cleared. -/
theorem run_start_reset_witness :
    (resetForRun sampleState).generatedImages = []
    ∧ (resetForRun sampleState).error = none
    ∧ (resetForRun sampleState).generationProgress = 0
    ∧ (handleGenerate goodService sampleState).2 = (handleGenerate goodService sampleState2).2
    ∧ (handleGenerate goodService sampleState).1.generatedImages
        = (handleGenerate goodService sampleState2).1.generatedImages
    ∧ (handleGenerate goodService sampleState).1.generationProgress
        = (handleGenerate goodService sampleState2).1.generationProgress
    ∧ (handleGenerate goodService sampleState).1.error
        = (handleGenerate goodService sampleState2).1.error
    ∧ (handleGenerate goodService sampleState).1.isLoading
        = (handleGenerate goodService sampleState2).1.isLoading :=
  run_start_reset goodService sampleState sampleState2 sampleModel sampleDoll
    rfl rfl rfl rfl rfl rfl

/-- C9: when the file read fails or the image processing fails, the upload
handler sets a user-visible error, never invokes the slot setter callback,
and leaves both previously accepted artifacts unchanged. -/
theorem upload_failure_preserves_slots (read : ReadResult)
    (process : String → Except String ImageFile)
    (callback : ImageFile → AppState → AppState) (s : AppState)
    (hfail : read = ReadResult.err
      ∨ ∃ d msg, read = ReadResult.ok d ∧ process d = Except.error msg) :
    (fileHandler read process callback s).2 = false
    ∧ (fileHandler read process callback s).1.error.isSome = true
    ∧ (fileHandler read process callback s).1.modelImage = s.modelImage
    ∧ (fileHandler read process callback s).1.dollImage = s.dollImage := by
  rcases hfail with hfail | ⟨d, msg, hread, hproc⟩
  · subst hfail
    exact ⟨rfl, rfl, rfl, rfl⟩
  · subst hread
    simp [fileHandler, hproc]

/-- C9 witness: a failing read sets the read error, does not invoke the
setter, and preserves both artifact slots. -/
theorem upload_failure_preserves_slots_witness :
    (fileHandler ReadResult.err (fun _ => Except.error "boom")
        (fun img st => { st with modelImage := some img }) sampleState).2 = false
    ∧ (fileHandler ReadResult.err (fun _ => Except.error "boom")
        (fun img st => { st with modelImage := some img }) sampleState).1.error.isSome = true
    ∧ (fileHandler ReadResult.err (fun _ => Except.error "boom")
        (fun img st => { st with modelImage := some img }) sampleState).1.modelImage
        = sampleState.modelImage
    ∧ (fileHandler ReadResult.err (fun _ => Except.error "boom")
        (fun img st => { st with modelImage := some img }) sampleState).1.dollImage
        = sampleState.dollImage :=
  upload_failure_preserves_slots ReadResult.err (fun _ => Except.error "boom")
    (fun img st => { st with modelImage := some img }) sampleState (Or.inl rfl)

/-- C10: the progress counter and the image list advance in lockstep: each
progress callback appends exactly one image and increments the counter by
exactly one, so after any sequence of run events applied from the run-start
reset, the counter equals the length of the image list. -/
theorem progress_lockstep (tr : List Event) (s : AppState) (u : String) :
    (tr.foldl applyEvent (resetForRun s)).generationProgress
      = (tr.foldl applyEvent (resetForRun s)).generatedImages.length
    ∧ (applyEvent s (Event.progress u)).generatedImages = s.generatedImages ++ [u]
    ∧ (applyEvent s (Event.progress u)).generationProgress = s.generationProgress + 1 := by
  obtain ⟨hImg, hProg, -, -, -, -, -, -⟩ := foldl_applyEvent_fields tr (resetForRun s)
  refine ⟨?_, rfl, rfl⟩
  rw [hImg, hProg]
  simp [resetForRun]

end JumboDoll
